import Mathlib

/-!
Shallow embedding of the transcript engine of `AudioTranscriber.py`
(class `AudioTranscriber`): phrase segmentation, per-channel transcript
stores, transcript merging, persistence, and the per-tick transcription
loop body.

Modelling conventions:
* Timestamps are integers counting microseconds (Python `datetime` has
  microsecond resolution; `timedelta(seconds=3.05)` is exactly
  3 050 000 microseconds, since the float `3.05` rounds to that many
  microseconds inside `timedelta`).
* Audio byte strings are `List Nat`.
* `datetime.strftime "%Y-%m-%d %H:%M:%S"` is abstracted by a computable
  rendering `timestampStr`; no claim depends on its concrete output.
* Mutation of `self.audio_sources[who]` / `self.transcript_data[who]`
  becomes explicit state passing on `SourceState` / entry lists.
-/

/-- Constant `PHRASE_TIMEOUT = 3.05` (seconds), expressed in microseconds:
`timedelta(seconds=3.05)` equals exactly 3 050 000 microseconds. -/
def PHRASE_TIMEOUT_MICROS : Int := 3050000

/-- Constant `MAX_PHRASES = 10` from `AudioTranscriber.py`. -/
def MAX_PHRASES : Nat := 10

/-- Per-channel accumulation state: the entry of `self.audio_sources[who]`
used by the segmentation logic (`last_sample`, `last_spoken`, `new_phrase`).
The fixed format fields (`sample_rate` …) play no role in any claim. -/
structure SourceState where
  last_sample : List Nat
  last_spoken : Option Int
  new_phrase : Bool
deriving Repr, DecidableEq

/-- Method `AudioTranscriber.update_last_sample_and_phrase_status` (lines
154-163), acting on the `SourceState` of one channel.  The Python truthiness test
`if source_info["last_spoken"] and …` is `False` exactly when
`last_spoken` is `None` (a `datetime` is always truthy). -/
def update_last_sample_and_phrase_status (s : SourceState) (data : List Nat)
    (time_spoken : Int) : SourceState :=
  let s1 :=
    match s.last_spoken with
    | some t0 =>
      if time_spoken - t0 > PHRASE_TIMEOUT_MICROS then
        { s with last_sample := [], new_phrase := true }
      else
        { s with new_phrase := false }
    | none => { s with new_phrase := false }
  { s1 with last_sample := s1.last_sample ++ data, last_spoken := some time_spoken }

/-- One element of `self.transcript_data[who]`: the pre-formatted line and
the `time_spoken` it was stored with. -/
structure Entry where
  line : String
  spokenAt : Int
deriving Repr, DecidableEq

/-- Abstract stand-in for `time_spoken.strftime("%Y-%m-%d %H:%M:%S")`:
a computable rendering of the microsecond timestamp.  No claim depends on
the concrete characters produced. -/
def timestampStr (t : Int) : String := toString t

/-- The f-string of lines 189/191:
`f"{who_spoke}[{timestamp_str}]: [{text}]\n\n"` paired with `time_spoken`. -/
def mkEntry (who_spoke text : String) (time_spoken : Int) : Entry :=
  { line := who_spoke ++ "[" ++ timestampStr time_spoken ++ "]: [" ++ text ++ "]\n\n"
    spokenAt := time_spoken }

/-- Method `AudioTranscriber.update_transcript` (lines 179-191) acting on
the entry list of one channel, with the `new_phrase` flag of that channel
passed explicitly.  `transcript.pop(-1)` before `transcript.insert(0, e)` is
`dropLast` then cons; `transcript[0] = e` on a non-empty list is
cons onto `tail`. -/
def update_transcript (new_phrase : Bool) (transcript : List Entry)
    (who_spoke text : String) (time_spoken : Int) : List Entry :=
  if new_phrase || transcript.length == 0 then
    mkEntry who_spoke text time_spoken ::
      (if MAX_PHRASES < transcript.length then transcript.dropLast else transcript)
  else
    mkEntry who_spoke text time_spoken :: transcript.tail

/-- Inner loop of the two-way merge: merge `x :: xs` (with `rest`
recursing on `xs`) into the second list.  Structural helper so that the
merge evaluates by kernel reduction. -/
def mergeOne (x : Entry) (xs : List Entry) (rest : List Entry → List Entry) :
    List Entry → List Entry
  | [] => x :: xs
  | y :: ys =>
    if y.spokenAt ≤ x.spokenAt then x :: rest (y :: ys)
    else y :: mergeOne x xs rest ys

/-- Library call `heapq.merge(you, speaker, key=lambda x: x[1], reverse=True)`:
two-way descending merge by `spokenAt`; on ties the element of the first
iterable (`"You"`) comes first, as `heapq.merge` is stable.
`mergeDesc (x :: xs) (y :: ys)` takes `x` when `y.spokenAt ≤ x.spokenAt`
and `y` otherwise. -/
def mergeDesc : List Entry → List Entry → List Entry
  | [], ys => ys
  | x :: xs, ys => mergeOne x xs (mergeDesc xs) ys

/-- Whole-transcriber state: `self.transcript_data` and the segmentation
part of `self.audio_sources`, for both channels. -/
structure TranscriberState where
  youTranscript : List Entry
  speakerTranscript : List Entry
  youSource : SourceState
  speakerSource : SourceState
deriving Repr, DecidableEq

/-- Method `AudioTranscriber.get_transcript` (lines 193-198): merge the two
channels descending by `spokenAt`, truncate to `MAX_PHRASES`, join the
pre-formatted lines. -/
def get_transcript (st : TranscriberState) : String :=
  String.join (((mergeDesc st.youTranscript st.speakerTranscript).take
    MAX_PHRASES).map Entry.line)

/-- Method `AudioTranscriber.clear_transcript_data` (lines 200-211): clear both
entry lists, reset both buffers to empty and both `new_phrase` flags to
`True`.  `last_spoken` is not touched.  (The call to
`create_new_transcript_file` affects only the file path.) -/
def clear_transcript_data (st : TranscriberState) : TranscriberState :=
  { youTranscript := []
    speakerTranscript := []
    youSource := { st.youSource with last_sample := [], new_phrase := true }
    speakerSource := { st.speakerSource with last_sample := [], new_phrase := true } }

/-- Python `open(path, mode)` followed by writes: mode `"w"` truncates,
mode `"a"` appends.  Models the effect on the file content. -/
def pyWrite (mode : String) (oldContent newData : String) : String :=
  if mode == "a" then oldContent ++ newData else newData

/-- Method `AudioTranscriber.write_transcript_to_file` (lines 213-218): the
file content after the call, given its previous content.  The file is
opened with mode `"w"`, then the header and `get_transcript()` are
written. -/
def write_transcript_to_file (oldContent : String) (st : TranscriberState)
    (now : Int) : String :=
  pyWrite "w" oldContent
    ("Transcript updated at " ++ timestampStr now ++ " UTC\n\n" ++ get_transcript st)

/-- Python `str.lower()` on the result text: per-character lowercase
(identical to `str.lower` on ASCII text, which is all the comparison at
lines 116/133 distinguishes). -/
def pyLower (s : String) : String := ⟨s.data.map Char.toLower⟩

/-- Condition `text != "" and text.lower() != "you"` negated (lines
116/133): a
transcription result that is discarded rather than recorded as pending. -/
def discard_result (text : String) : Bool :=
  text == "" || pyLower text == "you"

/-- Result of the per-channel `try/except/finally` block in
`transcribe_audio_queue` (lines 111-124 resp. 128-141). -/
structure ChannelOutcome where
  pending : Option String
  tempFileRemoved : Bool
  propagated : Option String
deriving Repr, DecidableEq

/-- The per-channel `try/except/finally` block (lines 111-124): `mkstemp`
creates the temp file, `process_data` packages `last_sample` into it,
`get_transcription` runs the model.  Python semantics of the block:
* an exception inside `try` is caught by `except Exception` (logged),
* `finally` always runs `os.unlink(path)` — but when `tempfile.mkstemp`
  itself raised, the local `path` was never bound, so `os.unlink(path)`
  raises `NameError` (`UnboundLocalError`), which propagates out of
  `transcribe_audio_queue`,
* a result passing the `text != "" and text.lower() != "you"` filter
  becomes a pending transcription. -/
def channel_block (mkstemp : Except String Unit) (process_data : Except String Unit)
    (get_transcription : Except String String) : ChannelOutcome :=
  match mkstemp with
  | Except.error _ =>
    { pending := none, tempFileRemoved := false
      propagated := some "NameError: cannot unlink unbound path" }
  | Except.ok _ =>
    match process_data with
    | Except.error _ => { pending := none, tempFileRemoved := true, propagated := none }
    | Except.ok _ =>
      match get_transcription with
      | Except.error _ => { pending := none, tempFileRemoved := true, propagated := none }
      | Except.ok text =>
        if discard_result text then
          { pending := none, tempFileRemoved := true, propagated := none }
        else
          { pending := some text, tempFileRemoved := true, propagated := none }

/-- Folding `update_last_sample_and_phrase_status` over a drained batch of
`(data, time_spoken)` chunks, as the two drain loops of
`transcribe_audio_queue` (lines 91-107) do per channel. -/
def processChunks (s : SourceState) (chunks : List (List Nat × Int)) : SourceState :=
  chunks.foldl (fun a c => update_last_sample_and_phrase_status a c.1 c.2) s

/-- No inter-chunk gap exceeds `PHRASE_TIMEOUT`, starting from a channel
whose `last_spoken` is the first argument: the "single phrase" condition. -/
def withinPhrase : Option Int → List (List Nat × Int) → Bool
  | _, [] => true
  | prev, (_, t) :: rest =>
    (match prev with
     | none => true
     | some t0 => decide (t - t0 ≤ PHRASE_TIMEOUT_MICROS)) && withinPhrase (some t) rest

/-- Call `self.update_transcript(who_spoke, …)` on the whole state:
dispatch on the channel key and update the entry list of that channel
using the `new_phrase` flag of that channel. -/
def state_update_transcript (st : TranscriberState) (who_spoke text : String)
    (time_spoken : Int) : TranscriberState :=
  if who_spoke == "You" then
    { st with youTranscript :=
        update_transcript st.youSource.new_phrase st.youTranscript who_spoke text time_spoken }
  else
    { st with speakerTranscript :=
        update_transcript st.speakerSource.new_phrase st.speakerTranscript who_spoke text time_spoken }

/-- The external events of one iteration of `transcribe_audio_queue`:
the drained chunk batches, the per-channel outcome of temp-file
creation, packaging and model call, and the `datetime.utcnow()` values
taken at lines 119/136. -/
structure TickInput where
  micChunks : List (List Nat × Int)
  speakerChunks : List (List Nat × Int)
  micMkstemp : Except String Unit
  micProcess : Except String Unit
  micTranscription : Except String String
  spkMkstemp : Except String Unit
  spkProcess : Except String Unit
  spkTranscription : Except String String
  micUtcNow : Int
  spkUtcNow : Int

/-- Observable outcome of one loop iteration. -/
structure TickResult where
  state : TranscriberState
  eventSet : Bool
  fileWritten : Bool
  propagated : Option String
deriving Repr, DecidableEq

/-- One iteration of the `while True` loop of `transcribe_audio_queue`
(lines 88-152): drain both queues (updating segmentation state), run each
per-channel block when its batch is non-empty, collect pending
transcriptions `("You"/"Speaker", text, utcnow)`, sort them by the
recorded time (Python `list.sort` is a stable ascending sort), apply
`update_transcript` to each, and on any pending result set the
transcript-changed event and write the file.  An exception propagating
from a per-channel `finally` block aborts the iteration (and the loop). -/
def transcribe_tick (st : TranscriberState) (inp : TickInput) : TickResult :=
  let st2 : TranscriberState :=
    { st with youSource := processChunks st.youSource inp.micChunks
              speakerSource := processChunks st.speakerSource inp.speakerChunks }
  let micOut : Option ChannelOutcome :=
    if inp.micChunks.isEmpty then none
    else some (channel_block inp.micMkstemp inp.micProcess inp.micTranscription)
  let micProp : Option String :=
    match micOut with
    | none => none
    | some o => o.propagated
  match micProp with
  | some e => { state := st2, eventSet := false, fileWritten := false, propagated := some e }
  | none =>
    let spkOut : Option ChannelOutcome :=
      if inp.speakerChunks.isEmpty then none
      else some (channel_block inp.spkMkstemp inp.spkProcess inp.spkTranscription)
    let spkProp : Option String :=
      match spkOut with
      | none => none
      | some o => o.propagated
    match spkProp with
    | some e => { state := st2, eventSet := false, fileWritten := false, propagated := some e }
    | none =>
      let pending : List (String × String × Int) :=
        (match micOut with
         | some o =>
           match o.pending with
           | some text => [("You", text, inp.micUtcNow)]
           | none => []
         | none => []) ++
        (match spkOut with
         | some o =>
           match o.pending with
           | some text => [("Speaker", text, inp.spkUtcNow)]
           | none => []
         | none => [])
      match pending.insertionSort (fun a b => a.2.2 ≤ b.2.2) with
      | [] => { state := st2, eventSet := false, fileWritten := false, propagated := none }
      | p :: ps =>
        { state := (p :: ps).foldl
            (fun s q => state_update_transcript s q.1 q.2.1 q.2.2) st2
          eventSet := true, fileWritten := true, propagated := none }

/-! ## Theorems -/

/-- C2: for a channel with `last_spoken = t0`, a chunk at time `t` with
`t - t0 > PHRASE_TIMEOUT` clears the buffer (before appending the chunk)
and sets `new_phrase := true`; otherwise — including when `last_spoken`
is unset — `new_phrase` becomes `false`.  In particular a chunk 3.06 s
after `t0` starts a new phrase and a chunk 3.04 s after `t0` does not. -/
theorem C2_phrase_boundary (s s2 : SourceState) (data : List Nat) (t t0 : Int)
    (h : s.last_spoken = some t0) :
    (t - t0 > PHRASE_TIMEOUT_MICROS →
      update_last_sample_and_phrase_status s data t =
        { last_sample := data, last_spoken := some t, new_phrase := true }) ∧
    (t - t0 ≤ PHRASE_TIMEOUT_MICROS →
      (update_last_sample_and_phrase_status s data t).new_phrase = false) ∧
    (s2.last_spoken = none →
      (update_last_sample_and_phrase_status s2 data t).new_phrase = false) ∧
    (update_last_sample_and_phrase_status s data (t0 + 3060000)).new_phrase = true ∧
    (update_last_sample_and_phrase_status s data (t0 + 3040000)).new_phrase = false := by
  refine ⟨?_, ?_, ?_, ?_, ?_⟩
  · intro hgt
    simp [update_last_sample_and_phrase_status, h, hgt]
  · intro hle
    have hc : ¬ (t - t0 > PHRASE_TIMEOUT_MICROS) := not_lt.mpr hle
    simp [update_last_sample_and_phrase_status, h, hc]
  · intro hnone
    simp [update_last_sample_and_phrase_status, hnone]
  · have hc : PHRASE_TIMEOUT_MICROS < (3060000 : Int) := by
      unfold PHRASE_TIMEOUT_MICROS; omega
    simp [update_last_sample_and_phrase_status, h, hc]
  · have hc : ¬ PHRASE_TIMEOUT_MICROS < (3040000 : Int) := by
      unfold PHRASE_TIMEOUT_MICROS; omega
    simp [update_last_sample_and_phrase_status, h, hc]

theorem C2_phrase_boundary_witness :
    update_last_sample_and_phrase_status ⟨[5], some 0, false⟩ [7] 3060000 =
      { last_sample := [7], last_spoken := some 3060000, new_phrase := true } ∧
    (update_last_sample_and_phrase_status ⟨[5], some 0, false⟩ [7] 3040000).new_phrase
      = false := by
  refine ⟨?_, ?_⟩
  · exact (C2_phrase_boundary ⟨[5], some 0, false⟩ ⟨[], none, true⟩ [7] 3060000 0
      rfl).1 (by decide)
  · exact (C2_phrase_boundary ⟨[5], some 0, false⟩ ⟨[], none, true⟩ [7] 3040000 0
      rfl).2.1 (by decide)

/-- C4: when `new_phrase` is `false` and the list is non-empty,
`update_transcript` overwrites index 0; two consecutive same-phrase
updates for `"You"` with `"hi"` then `"hi there"` leave one entry (the
`"hi there"` one), and a same-phrase update followed by a boundary reset
followed by another update leaves two entries, newest first. -/
theorem C4_live_overwrite (l : List Entry) (who text : String) (t t1 t2 : Int)
    (h : l ≠ []) :
    update_transcript false l who text t = mkEntry who text t :: l.tail ∧
    update_transcript false (update_transcript false [] "You" "hi" t1)
        "You" "hi there" t2 = [mkEntry "You" "hi there" t2] ∧
    update_transcript true (update_transcript false [] "You" "hi" t1)
        "You" "bye" t2 = [mkEntry "You" "bye" t2, mkEntry "You" "hi" t1] := by
  refine ⟨?_, rfl, rfl⟩
  cases l with
  | nil => exact absurd rfl h
  | cons a as => rfl

theorem C4_live_overwrite_witness :
    update_transcript false [mkEntry "Speaker" "old" 0] "Speaker" "new" 1
      = [mkEntry "Speaker" "new" 1] := by
  have h := (C4_live_overwrite [mkEntry "Speaker" "old" 0] "Speaker" "new" 1 0 0
    (by simp)).1
  simpa using h

/-- C8: `write_transcript_to_file` overwrites the file: its content after
the call is exactly one header line with the update timestamp, a blank
line, then exactly `get_transcript`, independent of the previous file
content. -/
theorem C8_write_overwrites (oldContent : String) (st : TranscriberState) (now : Int) :
    write_transcript_to_file oldContent st now =
      "Transcript updated at " ++ timestampStr now ++ " UTC\n" ++ "\n" ++
        get_transcript st ∧
    write_transcript_to_file oldContent st now = write_transcript_to_file "" st now := by
  constructor
  · show "Transcript updated at " ++ timestampStr now ++ " UTC\n\n" ++ get_transcript st
      = "Transcript updated at " ++ timestampStr now ++ " UTC\n" ++ "\n" ++
        get_transcript st
    rw [show (" UTC\n\n" : String) = " UTC\n" ++ "\n" from rfl]
    simp only [String.append_assoc]
  · rfl

/-- C9: `clear_transcript_data` empties both transcript lists, resets both
buffers and `new_phrase` flags, leaves `last_spoken` unchanged on both
channels; hence a chunk within `PHRASE_TIMEOUT` of the last pre-clear
chunk is treated as a continuation (`new_phrase` back to `false`). -/
theorem C9_clear_keeps_last_spoken (st : TranscriberState) (data : List Nat)
    (t t0 : Int) (h1 : st.youSource.last_spoken = some t0)
    (h2 : t - t0 ≤ PHRASE_TIMEOUT_MICROS) :
    (clear_transcript_data st).youTranscript = [] ∧
    (clear_transcript_data st).speakerTranscript = [] ∧
    (clear_transcript_data st).youSource.last_sample = [] ∧
    (clear_transcript_data st).speakerSource.last_sample = [] ∧
    (clear_transcript_data st).youSource.new_phrase = true ∧
    (clear_transcript_data st).speakerSource.new_phrase = true ∧
    (clear_transcript_data st).youSource.last_spoken = st.youSource.last_spoken ∧
    (clear_transcript_data st).speakerSource.last_spoken
      = st.speakerSource.last_spoken ∧
    (update_last_sample_and_phrase_status (clear_transcript_data st).youSource
      data t).new_phrase = false := by
  refine ⟨rfl, rfl, rfl, rfl, rfl, rfl, rfl, rfl, ?_⟩
  have hc : ¬ (t - t0 > PHRASE_TIMEOUT_MICROS) := not_lt.mpr h2
  simp [update_last_sample_and_phrase_status, clear_transcript_data, h1, hc]

theorem C9_clear_keeps_last_spoken_witness :
    (update_last_sample_and_phrase_status
      (clear_transcript_data
        ⟨[mkEntry "You" "a" 0], [], ⟨[1], some 0, false⟩, ⟨[], none, true⟩⟩).youSource
      [2] 100).new_phrase = false :=
  (C9_clear_keeps_last_spoken
    ⟨[mkEntry "You" "a" 0], [], ⟨[1], some 0, false⟩, ⟨[], none, true⟩⟩
    [2] 100 0 rfl (by decide)).2.2.2.2.2.2.2.2

/-- C10: every `update_transcript` call preserves
`length ≤ MAX_PHRASES + 1` (11): an insertion pops the last entry exactly
when the pre-insertion length strictly exceeds `MAX_PHRASES`, an
overwrite never changes the length, `clear_transcript_data` empties the
lists, and the initial empty list satisfies the bound. -/
theorem C10_length_invariant (b : Bool) (l : List Entry) (who text : String)
    (t : Int) (st : TranscriberState) (h : l.length ≤ MAX_PHRASES + 1) :
    (update_transcript b l who text t).length ≤ MAX_PHRASES + 1 ∧
    ((b = true ∨ l = []) →
      update_transcript b l who text t =
        mkEntry who text t ::
          (if MAX_PHRASES < l.length then l.dropLast else l)) ∧
    (b = false → l ≠ [] →
      (update_transcript b l who text t).length = l.length) ∧
    (clear_transcript_data st).youTranscript.length ≤ MAX_PHRASES + 1 ∧
    (clear_transcript_data st).speakerTranscript.length ≤ MAX_PHRASES + 1 ∧
    ([] : List Entry).length ≤ MAX_PHRASES + 1 := by
  refine ⟨?_, ?_, ?_, by simp [clear_transcript_data, MAX_PHRASES],
    by simp [clear_transcript_data, MAX_PHRASES], by decide⟩
  · unfold update_transcript
    split
    · split
      · rename_i hpop
        simp only [List.length_cons, List.length_dropLast]
        simp only [MAX_PHRASES] at h hpop ⊢
        omega
      · rename_i hpop
        simp only [List.length_cons]
        simp only [MAX_PHRASES, not_lt] at h hpop ⊢
        omega
    · cases l with
      | nil => simp [MAX_PHRASES]
      | cons a as =>
        simp only [List.tail_cons, List.length_cons]
        simp only [MAX_PHRASES] at h ⊢
        simp only [List.length_cons] at h
        omega
  · intro hbl
    rcases hbl with hb | hl
    · subst hb
      simp [update_transcript]
    · subst hl
      simp [update_transcript]
  · intro hb hne
    subst hb
    cases l with
    | nil => exact absurd rfl hne
    | cons a as => simp [update_transcript]

theorem C10_length_invariant_witness :
    (update_transcript true [] "You" "x" 0).length ≤ MAX_PHRASES + 1 :=
  (C10_length_invariant true [] "You" "x" 0
    ⟨[], [], ⟨[], none, true⟩, ⟨[], none, true⟩⟩ (by decide)).1

/-- C1 as stated is false on the code: `update_transcript` pops the last
entry *before* inserting and only when the length already *strictly
exceeds* `MAX_PHRASES`, so eleven new-phrase insertions into an empty
channel leave 11 entries, not `MAX_PHRASES = 10`. -/
theorem C1_cap_counterexample :
    ¬ (((List.range 11).foldl
        (fun acc i => update_transcript true acc "You" "x" (Int.ofNat i))
        ([] : List Entry)).length = MAX_PHRASES) := by decide

/-- C1 (amended): inserting 11 new-phrase entries into an empty channel
leaves exactly `MAX_PHRASES + 1 = 11` entries; whenever an insertion
happens with the list already strictly longer than `MAX_PHRASES`, the
oldest (last) entry is dropped first, so a channel list never exceeds
`MAX_PHRASES + 1` entries after an update. -/
theorem C1_cap_amended (l : List Entry) (who text : String) (t : Int)
    (h : l.length ≤ MAX_PHRASES + 1) :
    (update_transcript true l who text t).length ≤ MAX_PHRASES + 1 ∧
    (MAX_PHRASES < l.length →
      update_transcript true l who text t = mkEntry who text t :: l.dropLast) ∧
    ((List.range 11).foldl
        (fun acc i => update_transcript true acc "You" "x" (Int.ofNat i))
        ([] : List Entry)).length = MAX_PHRASES + 1 := by
  refine ⟨?_, ?_, by decide⟩
  · unfold update_transcript
    split
    · split
      · rename_i hpop
        simp only [List.length_cons, List.length_dropLast]
        simp only [MAX_PHRASES] at h hpop ⊢
        omega
      · rename_i hpop
        simp only [List.length_cons]
        simp only [MAX_PHRASES, not_lt] at h hpop ⊢
        omega
    · rename_i hcond
      simp at hcond
  · intro hlen
    simp [update_transcript, hlen]

lemma processChunks_cons (s : SourceState) (c : List Nat × Int)
    (rest : List (List Nat × Int)) :
    processChunks s (c :: rest) =
      processChunks (update_last_sample_and_phrase_status s c.1 c.2) rest := rfl

/-- When the gap condition of `withinPhrase` holds for one chunk, the
boundary branch is not taken: the chunk is appended and `last_spoken`
updated, with no reset. -/
lemma update_no_reset (s : SourceState) (d : List Nat) (t : Int)
    (hg : (match s.last_spoken with
           | none => true
           | some t0 => decide (t - t0 ≤ PHRASE_TIMEOUT_MICROS)) = true) :
    update_last_sample_and_phrase_status s d t =
      { last_sample := s.last_sample ++ d, last_spoken := some t
        new_phrase := false } := by
  cases hs : s.last_spoken with
  | none => simp [update_last_sample_and_phrase_status, hs]
  | some t0 =>
    rw [hs] at hg
    simp only at hg
    have hle : t - t0 ≤ PHRASE_TIMEOUT_MICROS := of_decide_eq_true hg
    have hc : ¬ (t - t0 > PHRASE_TIMEOUT_MICROS) := not_lt.mpr hle
    simp [update_last_sample_and_phrase_status, hs, hc]

lemma processChunks_flatten (chunks : List (List Nat × Int)) (s : SourceState)
    (h : withinPhrase s.last_spoken chunks = true) :
    (processChunks s chunks).last_sample
      = s.last_sample ++ (chunks.map Prod.fst).flatten := by
  induction chunks generalizing s with
  | nil => simp [processChunks]
  | cons c rest ih =>
    obtain ⟨d, t⟩ := c
    rw [withinPhrase.eq_def, Bool.and_eq_true] at h
    have hupd := update_no_reset s d t h.1
    have hrest : withinPhrase
        (update_last_sample_and_phrase_status s d t).last_spoken rest = true := by
      rw [hupd]
      exact h.2
    rw [processChunks_cons, ih _ hrest, hupd]
    simp [List.append_assoc]

lemma processChunks_final_spoken (chunks : List (List Nat × Int))
    (s : SourceState) (c : List Nat × Int) (h : chunks.getLast? = some c) :
    (processChunks s chunks).last_spoken = some c.2 := by
  induction chunks generalizing s with
  | nil => simp at h
  | cons c0 rest ih =>
    cases rest with
    | nil =>
      simp at h
      subst h
      rfl
    | cons c1 rest2 =>
      rw [List.getLast?_cons_cons] at h
      rw [processChunks_cons]
      exact ih _ h

/-- C3: over a batch of chunks with no gap exceeding `PHRASE_TIMEOUT`
(a single phrase) and an empty starting buffer, the accumulated buffer is
the concatenation of all chunk payloads in arrival order; each call
appends its payload unconditionally (the payload is a suffix of the
resulting buffer even after a boundary reset) and always sets
`last_spoken` to the chunk capture time. -/
theorem C3_single_phrase_concat (s s2 : SourceState)
    (chunks : List (List Nat × Int)) (data : List Nat) (t : Int)
    (c : List Nat × Int) (h1 : s.last_sample = [])
    (h2 : withinPhrase s.last_spoken chunks = true)
    (h3 : chunks.getLast? = some c) :
    (processChunks s chunks).last_sample = (chunks.map Prod.fst).flatten ∧
    List.IsSuffix data
      (update_last_sample_and_phrase_status s2 data t).last_sample ∧
    (update_last_sample_and_phrase_status s2 data t).last_spoken = some t ∧
    (processChunks s chunks).last_spoken = some c.2 := by
  refine ⟨?_, ?_, rfl, processChunks_final_spoken chunks s c h3⟩
  · rw [processChunks_flatten chunks s h2, h1]
    simp
  · exact List.suffix_append _ _

theorem C3_single_phrase_concat_witness :
    (processChunks ⟨[], some 0, true⟩ [([1, 2], 100), ([3], 200)]).last_sample
      = [1, 2, 3] := by
  have h := C3_single_phrase_concat ⟨[], some 0, true⟩ ⟨[], none, true⟩
    [([1, 2], 100), ([3], 200)] [9] 7 ([3], 200) rfl (by decide) rfl
  simpa using h.1

lemma mergeDesc_nil_right (xs : List Entry) : mergeDesc xs [] = xs := by
  cases xs <;> rfl

lemma mergeDesc_cons_cons (x y : Entry) (xs ys : List Entry) :
    mergeDesc (x :: xs) (y :: ys) =
      if y.spokenAt ≤ x.spokenAt then x :: mergeDesc xs (y :: ys)
      else y :: mergeDesc (x :: xs) ys := rfl

lemma mergeDesc_perm : ∀ xs ys : List Entry, (mergeDesc xs ys).Perm (xs ++ ys) := by
  intro xs
  induction xs with
  | nil =>
    intro ys
    simp [mergeDesc]
  | cons x xs ih1 =>
    intro ys
    induction ys with
    | nil => simp [mergeDesc_nil_right]
    | cons y ys ih2 =>
      rw [mergeDesc_cons_cons]
      by_cases hle : y.spokenAt ≤ x.spokenAt
      · rw [if_pos hle]
        exact (ih1 (y :: ys)).cons x
      · rw [if_neg hle]
        exact (ih2.cons y).trans List.perm_middle.symm

lemma mergeDesc_sorted : ∀ xs ys : List Entry,
    List.Sorted (fun a b : Entry => b.spokenAt ≤ a.spokenAt) xs →
    List.Sorted (fun a b : Entry => b.spokenAt ≤ a.spokenAt) ys →
    List.Sorted (fun a b : Entry => b.spokenAt ≤ a.spokenAt) (mergeDesc xs ys) := by
  intro xs
  induction xs with
  | nil =>
    intro ys _ hy
    simpa [mergeDesc] using hy
  | cons x xs ih1 =>
    intro ys
    induction ys with
    | nil =>
      intro hx _
      simpa [mergeDesc_nil_right] using hx
    | cons y ys ih2 =>
      intro hx hy
      have hx' := List.sorted_cons.mp hx
      have hy' := List.sorted_cons.mp hy
      rw [mergeDesc_cons_cons]
      by_cases hle : y.spokenAt ≤ x.spokenAt
      · rw [if_pos hle]
        refine List.sorted_cons.mpr ⟨?_, ih1 (y :: ys) hx'.2 hy⟩
        intro b hb
        have hb' : b ∈ xs ++ (y :: ys) :=
          (mergeDesc_perm xs (y :: ys)).mem_iff.mp hb
        rcases List.mem_append.mp hb' with h1 | h1
        · exact hx'.1 b h1
        · rcases List.mem_cons.mp h1 with rfl | h2
          · exact hle
          · exact le_trans (hy'.1 b h2) hle
      · rw [if_neg hle]
        have hxy : x.spokenAt ≤ y.spokenAt := (not_le.mp hle).le
        refine List.sorted_cons.mpr ⟨?_, ih2 hx hy'.2⟩
        intro b hb
        have hb' : b ∈ (x :: xs) ++ ys :=
          (mergeDesc_perm (x :: xs) ys).mem_iff.mp hb
        rcases List.mem_append.mp hb' with h1 | h1
        · rcases List.mem_cons.mp h1 with rfl | h2
          · exact hxy
          · exact le_trans (hx'.1 b h2) hxy
        · exact hy'.1 b h1

/-- C5: on two per-channel lists sorted by `spokenAt` descending,
`get_transcript` renders the take-`MAX_PHRASES` truncation of their
two-way merge: the merged sequence is again sorted descending, is a
permutation of the two inputs together, at most `MAX_PHRASES` entries are
rendered, and on the spec example (`You` at 10, 8; `Speaker` at 9, 7) the
merged order is 10, 9, 8, 7. -/
theorem C5_merge_render (ys ss : List Entry) (s1 s2 : SourceState)
    (h1 : List.Sorted (fun a b : Entry => b.spokenAt ≤ a.spokenAt) ys)
    (h2 : List.Sorted (fun a b : Entry => b.spokenAt ≤ a.spokenAt) ss) :
    List.Sorted (fun a b : Entry => b.spokenAt ≤ a.spokenAt) (mergeDesc ys ss) ∧
    (mergeDesc ys ss).Perm (ys ++ ss) ∧
    get_transcript ⟨ys, ss, s1, s2⟩ =
      String.join (((mergeDesc ys ss).take MAX_PHRASES).map Entry.line) ∧
    ((mergeDesc ys ss).take MAX_PHRASES).length ≤ MAX_PHRASES ∧
    (mergeDesc [⟨"y1", 10⟩, ⟨"y2", 8⟩] [⟨"s1", 9⟩, ⟨"s2", 7⟩]).map Entry.spokenAt
      = [10, 9, 8, 7] := by
  refine ⟨mergeDesc_sorted ys ss h1 h2, mergeDesc_perm ys ss, rfl, ?_, by decide⟩
  simp

theorem C5_merge_render_witness :
    List.Sorted (fun a b : Entry => b.spokenAt ≤ a.spokenAt)
      (mergeDesc [⟨"y1", 10⟩, ⟨"y2", 8⟩] [⟨"s1", 9⟩, ⟨"s2", 7⟩]) :=
  (C5_merge_render [⟨"y1", 10⟩, ⟨"y2", 8⟩] [⟨"s1", 9⟩, ⟨"s2", 7⟩]
    ⟨[], none, true⟩ ⟨[], none, true⟩ (by decide) (by decide)).1

theorem C1_cap_amended_witness :
    ((List.range 11).foldl
        (fun acc i => update_transcript true acc "You" "x" (Int.ofNat i))
        ([] : List Entry)).length = MAX_PHRASES + 1 :=
  (C1_cap_amended [] "You" "x" 0 (by decide)).2.2

lemma channel_block_pending_none (mk pr : Except String Unit) (text : String)
    (hd : discard_result text = true) :
    (channel_block mk pr (Except.ok text)).pending = none := by
  cases mk with
  | error e => rfl
  | ok u =>
    cases pr with
    | error e => rfl
    | ok u2 => simp [channel_block, hd]

lemma foldl_speaker_keeps_you (l : List (String × String × Int))
    (st : TranscriberState) (h : ∀ p ∈ l, p.1 = "Speaker") :
    (l.foldl (fun s q => state_update_transcript s q.1 q.2.1 q.2.2)
      st).youTranscript = st.youTranscript := by
  induction l generalizing st with
  | nil => rfl
  | cons p ps ih =>
    have hp := h p (List.mem_cons_self ..)
    have hps : ∀ q ∈ ps, q.1 = "Speaker" :=
      fun q hq => h q (List.mem_cons_of_mem _ hq)
    rw [List.foldl_cons, ih _ hps]
    simp [state_update_transcript, hp]

lemma tick_no_mic_pending (st : TranscriberState) (inp : TickInput)
    (hpend : inp.micChunks = [] ∨
      (channel_block inp.micMkstemp inp.micProcess inp.micTranscription).pending
        = none) :
    (transcribe_tick st inp).state.youTranscript = st.youTranscript ∧
    (inp.speakerChunks = [] →
      (transcribe_tick st inp).eventSet = false ∧
      (transcribe_tick st inp).fileWritten = false) := by
  rcases hmc : inp.micChunks with _ | ⟨c0, cs⟩
  · rcases hso : channel_block inp.spkMkstemp inp.spkProcess inp.spkTranscription
      with ⟨sp, stf, spr⟩
    rcases hsc : inp.speakerChunks with _ | ⟨d0, ds⟩
    · exact ⟨by simp [transcribe_tick, hmc, hsc],
        fun _ => ⟨by simp [transcribe_tick, hmc, hsc],
          by simp [transcribe_tick, hmc, hsc]⟩⟩
    · refine ⟨?_, fun hcontra => absurd hcontra (by simp)⟩
      cases spr with
      | some e => simp [transcribe_tick, hmc, hsc, hso]
      | none =>
        cases sp with
        | none =>
          simp [transcribe_tick, hmc, hsc, hso, List.insertionSort]
        | some text2 =>
          simp [transcribe_tick, hmc, hsc, hso, List.insertionSort,
            List.orderedInsert, state_update_transcript]
  · have hpn : (channel_block inp.micMkstemp inp.micProcess
        inp.micTranscription).pending = none := by
      rcases hpend with h | h
      · rw [h] at hmc
        cases hmc
      · exact h
    rcases hmo : channel_block inp.micMkstemp inp.micProcess inp.micTranscription
      with ⟨mp, mtf, mpr⟩
    rw [hmo] at hpn
    simp only at hpn
    subst hpn
    cases mpr with
    | some e =>
      exact ⟨by simp [transcribe_tick, hmc, hmo],
        fun _ => ⟨by simp [transcribe_tick, hmc, hmo],
          by simp [transcribe_tick, hmc, hmo]⟩⟩
    | none =>
      rcases hso : channel_block inp.spkMkstemp inp.spkProcess inp.spkTranscription
        with ⟨sp, stf, spr⟩
      rcases hsc : inp.speakerChunks with _ | ⟨d0, ds⟩
      · exact ⟨by simp [transcribe_tick, hmc, hsc, hmo, List.insertionSort],
          fun _ => ⟨by simp [transcribe_tick, hmc, hsc, hmo, List.insertionSort],
            by simp [transcribe_tick, hmc, hsc, hmo, List.insertionSort]⟩⟩
      · refine ⟨?_, fun hcontra => absurd hcontra (by simp)⟩
        cases spr with
        | some e => simp [transcribe_tick, hmc, hsc, hmo, hso]
        | none =>
          cases sp with
          | none =>
            simp [transcribe_tick, hmc, hsc, hmo, hso, List.insertionSort]
          | some text2 =>
            simp [transcribe_tick, hmc, hsc, hmo, hso, List.insertionSort,
              List.orderedInsert, state_update_transcript]

/-- C6: in a tick where the mic channel was drained, a transcription
result equal to `""` or case-insensitively equal to `"you"` is discarded:
the `"You"` transcript store is not updated, and (when the other channel
contributes nothing) no transcript-changed signal is set and no file is
written; a non-discarded text becomes a pending result. -/
theorem C6_discard_rule (st : TranscriberState) (inp : TickInput) (text : String)
    (h : inp.micTranscription = Except.ok text) :
    (discard_result text = true →
      (transcribe_tick st inp).state.youTranscript = st.youTranscript) ∧
    (discard_result text = true → inp.speakerChunks = [] →
      (transcribe_tick st inp).eventSet = false ∧
      (transcribe_tick st inp).fileWritten = false) ∧
    (discard_result text = false →
      (channel_block (Except.ok ()) (Except.ok ()) (Except.ok text)).pending
        = some text) ∧
    discard_result "" = true ∧ discard_result "you" = true ∧
    discard_result "You" = true ∧ discard_result "YOU" = true := by
  refine ⟨?_, ?_, ?_, by decide, by decide, by decide, by decide⟩
  · intro hd
    exact (tick_no_mic_pending st inp
      (Or.inr (by rw [h]; exact channel_block_pending_none _ _ _ hd))).1
  · intro hd hsc
    exact (tick_no_mic_pending st inp
      (Or.inr (by rw [h]; exact channel_block_pending_none _ _ _ hd))).2 hsc
  · intro hd
    simp [channel_block, hd]

theorem C6_discard_rule_witness :
    (transcribe_tick ⟨[], [], ⟨[], none, true⟩, ⟨[], none, true⟩⟩
      ⟨[([1], 0)], [], Except.ok (), Except.ok (), Except.ok "You",
        Except.ok (), Except.ok (), Except.ok "", 5, 6⟩).eventSet = false ∧
    (transcribe_tick ⟨[], [], ⟨[], none, true⟩, ⟨[], none, true⟩⟩
      ⟨[([1], 0)], [], Except.ok (), Except.ok (), Except.ok "You",
        Except.ok (), Except.ok (), Except.ok "", 5, 6⟩).state.youTranscript
      = [] := by
  have h := C6_discard_rule ⟨[], [], ⟨[], none, true⟩, ⟨[], none, true⟩⟩
    ⟨[([1], 0)], [], Except.ok (), Except.ok (), Except.ok "You",
      Except.ok (), Except.ok (), Except.ok "", 5, 6⟩ "You" rfl
  exact ⟨(h.2.1 (by decide) rfl).1, h.1 (by decide)⟩

/-- C7 fails on the code: an exception from `tempfile.mkstemp` itself is
caught by the `except` clause, but the `finally` clause then evaluates
`os.unlink(path)` with the local `path` unbound, raising a `NameError`
that propagates out of `transcribe_audio_queue` — with no temp file
cleaned up.  Exceptions raised after the temp file exists (packaging or
model invocation) are handled as the claim states: no pending result,
temp file removed, nothing propagates. -/
theorem C7_mkstemp_failure_propagates :
    (channel_block (Except.error "OSError") (Except.ok ())
      (Except.ok "hello")).propagated
      = some "NameError: cannot unlink unbound path" ∧
    (channel_block (Except.error "OSError") (Except.ok ())
      (Except.ok "hello")).tempFileRemoved = false ∧
    channel_block (Except.ok ()) (Except.error "disk full") (Except.ok "hello")
      = { pending := none, tempFileRemoved := true, propagated := none } ∧
    channel_block (Except.ok ()) (Except.ok ()) (Except.error "model failure")
      = { pending := none, tempFileRemoved := true, propagated := none } ∧
    (transcribe_tick ⟨[], [], ⟨[], none, true⟩, ⟨[], none, true⟩⟩
      ⟨[([1], 0)], [], Except.error "OSError", Except.ok (), Except.ok "hello",
        Except.ok (), Except.ok (), Except.ok "", 5, 6⟩).propagated
      = some "NameError: cannot unlink unbound path" := by
  exact ⟨rfl, rfl, rfl, rfl, rfl⟩
